import Mathlib

/-!
Verification of the polymarket paper-trading decision engine.

This file gives a shallow embedding, in Lean 4, of the core decision
pipeline of the repository: position sizing (sizer.ts), the ensemble
consensus aggregator (analyzer.ts), the resolution checker and pnl
computation (resolver.ts), the paper-trade ledger bankroll bookkeeping
(paper-trader.ts and the report script), the calibration bucket builder
(reporter.ts), and the estimator response finalization (estimator.ts).

Conventions of the embedding:
- JavaScript numbers are modelled as rationals; the numeric literals of
  the source (0.95, 0.35, 0.12, 75, ...) are exact rationals here.
- The string prices of the Gamma API (outcomePrices, parsed in the source
  with parseFloat and JSON.parse) are modelled post-parse: a market
  carries a pair of rational prices, and a resolution status carries an
  optional pair of parsed settlement prices, none when parsing failed.
- Timestamps (Date.now()) are integers passed in explicitly.
- Fallible operations return Option, as the source returns null.
-/

namespace Polymarket

/-- Side of a binary market, the closed form of the "YES" | "NO" union. -/
inductive Side where
  | YES : Side
  | NO : Side
deriving DecidableEq, Repr

/-- Market snapshot from the Gamma API (types.ts, GammaMarket), restricted
to the fields the decision pipeline reads; outcomePrices is modelled
post-parseFloat as a pair (yes price, no price). -/
structure GammaMarket where
  id : String
  question : String
  conditionId : String
  slug : String
  endDate : String
  outcomePrices : ℚ × ℚ
  clobTokenIds : String × String
  liquidity : ℚ
deriving DecidableEq, Repr

/-- Trading signal produced by the analyzer (types.ts, Signal). -/
structure Signal where
  market : GammaMarket
  fairYes : ℚ
  confidence : ℚ
  reasoning : String
  edge : ℚ
  side : Side
  marketPrice : ℚ
  tokenId : String
  informationBasis : String
  model : String
deriving DecidableEq, Repr

/-- Sized position returned by the sizer (types.ts, SizedPosition). -/
structure SizedPosition where
  signal : Signal
  positionSize : ℚ
  kellyFraction : ℚ
  shares : ℚ
deriving DecidableEq, Repr

/-- Open position as seen by the sizer (types.ts, OpenPosition); the sizer
only reads the length of the list of these. -/
structure OpenPosition where
  marketId : String
  question : String
  side : Side
  entryPrice : ℚ
  shares : ℚ
  costBasis : ℚ
deriving DecidableEq, Repr

/-- Configuration constants of the TRADING object (config.ts) read by the
sizer; the concrete values live in configuration, not code, so they are
parameters of the embedding. -/
structure TradingConfig where
  initialBankroll : ℚ
  kellyFraction : ℚ
  maxTradeRisk : ℚ
  minTradeSize : ℚ
  minPriceThreshold : ℚ
  maxTradesPerCycle : ℕ
  maxOpenPositions : ℕ
  cycleIntervalMs : ℤ
deriving DecidableEq, Repr

/-- Rounding to 2 decimal places, the Math.floor(x * 100) / 100 of the
source (USDC precision). -/
def floorCents (x : ℚ) : ℚ := (⌊x * 100⌋ : ℚ) / 100

/-- Position sizing for a single signal (sizer.ts, sizeOne): longshot
filter, full Kelly, fractional Kelly, price-bucket percentage cap,
absolute max-loss cap, minimum-size floor, rounding. -/
def sizeOne (cfg : TradingConfig) (signal : Signal) (balance : ℚ) :
    Option SizedPosition :=
  let price := signal.marketPrice
  -- Skip longshot markets below threshold
  if price < cfg.minPriceThreshold then none else
  -- Net odds
  let b := 1 / price - 1
  let p := if signal.side = Side.YES then signal.fairYes else 1 - signal.fairYes
  let q := 1 - p
  let fullKelly := (b * p - q) / b
  if fullKelly ≤ 0 then none else
  let kellyFraction := fullKelly * cfg.kellyFraction
  let positionSize := balance * kellyFraction
  -- Asymmetric max position sizing based on entry price
  let maxPositionPct : ℚ :=
    if price < 0.35 then 0.15
    else if price ≤ 0.50 then 0.12
    else 0.08
  let maxSize := balance * maxPositionPct
  let positionSize := min positionSize maxSize
  -- Max loss cap: min of the dollar ceiling and the bankroll percentage
  let maxRiskDollars := min 75 (balance * cfg.maxTradeRisk)
  let positionSize := min positionSize maxRiskDollars
  -- Floor at minimum trade size
  if positionSize < cfg.minTradeSize then none else
  let positionSize := floorCents positionSize
  let shares := positionSize / price
  some { signal := signal, kellyFraction := kellyFraction,
         positionSize := positionSize, shares := shares }

/-- Sequential sizing loop of sizePositions (sizer.ts): each accepted
position reduces the balance available to the next signal. -/
def sizeLoop (cfg : TradingConfig) : List Signal → ℚ → List SizedPosition
  | [], _ => []
  | signal :: rest, balance =>
    match sizeOne cfg signal balance with
    | some sized => sized :: sizeLoop cfg rest (balance - sized.positionSize)
    | none => sizeLoop cfg rest balance

/-- Batch position sizing (sizer.ts, sizePositions): caps the number of
new positions by max open positions and max trades per cycle, then sizes
the surviving prefix sequentially against a running balance. -/
def sizePositions (cfg : TradingConfig) (signals : List Signal) (balance : ℚ)
    (openPositions : List OpenPosition) : List SizedPosition :=
  let maxPositions : ℤ := (cfg.maxOpenPositions : ℤ) - openPositions.length
  if maxPositions ≤ 0 then []
  else
    let toSize := signals.take (min cfg.maxTradesPerCycle maxPositions.toNat)
    sizeLoop cfg toSize balance

/-- Paper trade ledger entry (types.ts, PaperTrade); priceHistory is
omitted, no claim reads it. -/
structure PaperTrade where
  id : String
  timestamp : ℤ
  cycleNumber : ℕ
  marketId : String
  conditionId : String
  question : String
  slug : String
  endDate : String
  marketPriceYes : ℚ
  marketPriceNo : ℚ
  liquidity : ℚ
  side : Side
  fairYes : ℚ
  confidence : ℚ
  edge : ℚ
  reasoning : String
  hypotheticalSize : ℚ
  hypotheticalShares : ℚ
  entryPrice : ℚ
  resolved : Bool
  resolution : Option Side
  resolvedAt : Option ℤ
  pnl : Option ℚ
  model : String
deriving DecidableEq, Repr

/-- Market resolution status from the Gamma API (resolver.ts,
GammaMarketResolution); outcomePrices is the result of
parseOutcomePrices on the raw JSON string field: none when the string
did not parse to a 2-element array, otherwise the pair of parsed
(yes, no) settlement prices. -/
structure GammaMarketResolution where
  closed : Bool
  active : Bool
  outcomePrices : Option (ℚ × ℚ)
deriving DecidableEq, Repr

/-- Realized profit and loss of a resolved paper trade (resolver.ts,
calculatePnl): $1 per share on the winning side, $0 on the losing side,
net of the hypothetical cost basis. -/
def calculatePnl (trade : PaperTrade) (resolution : Side) : ℚ :=
  let won := trade.side = resolution
  let proceeds := if won then trade.hypotheticalShares * 1 else 0
  proceeds - trade.hypotheticalSize

/-- Update of one paper trade against the fetched market statuses
(resolver.ts, checkResolutions, body of the per-trade loop). A trade
resolves only when the market is closed and one parsed settlement price
exceeds 0.95; a closed market with no extreme price (refund or split) is
skipped. The statuses argument is the batch-fetched map, the now
argument is Date.now() at resolution time. -/
def resolveStep (statuses : String → Option GammaMarketResolution) (now : ℤ)
    (trade : PaperTrade) : PaperTrade :=
  if trade.resolved then trade
  else
    match statuses trade.marketId with
    | none => trade
    | some status =>
      if !status.closed then trade
      else
        match status.outcomePrices with
        | none => trade
        | some (yesPrice, noPrice) =>
          if yesPrice > 0.95 then
            { trade with resolved := true, resolution := some Side.YES,
                         resolvedAt := some now,
                         pnl := some (calculatePnl trade Side.YES) }
          else if noPrice > 0.95 then
            { trade with resolved := true, resolution := some Side.NO,
                         resolvedAt := some now,
                         pnl := some (calculatePnl trade Side.NO) }
          else trade

/-- Resolution pass over the whole trade list (resolver.ts,
checkResolutions). -/
def checkResolutions (statuses : String → Option GammaMarketResolution)
    (now : ℤ) (trades : List PaperTrade) : List PaperTrade :=
  trades.map (resolveStep statuses now)

/-- Bankroll-relevant slice of the persisted paper-trading state
(types.ts, PaperTradeState). -/
structure PaperState where
  simulatedBankroll : ℚ
  initialBankroll : ℚ
  trades : List PaperTrade
deriving DecidableEq, Repr

/-- Paper trade opened from a sized position (paper-trader.ts,
runPaperCycle step 7): appends the trade and debits the simulated
bankroll by the position size; a duplicate open trade of the same model
on the same market is silently skipped. The generated random id string
is passed in explicitly. -/
def openTrade (id : String) (model : String) (now : ℤ) (cycleNumber : ℕ)
    (pos : SizedPosition) (st : PaperState) : PaperState :=
  let signal := pos.signal
  let existing := st.trades.any fun t =>
    t.marketId == signal.market.id && t.model == model && !t.resolved
  if existing then st
  else
    let trade : PaperTrade :=
      { id := id
        timestamp := now
        cycleNumber := cycleNumber
        marketId := signal.market.id
        conditionId := signal.market.conditionId
        question := signal.market.question
        slug := signal.market.slug
        endDate := signal.market.endDate
        marketPriceYes := signal.market.outcomePrices.1
        marketPriceNo := signal.market.outcomePrices.2
        liquidity := signal.market.liquidity
        side := signal.side
        fairYes := signal.fairYes
        confidence := signal.confidence
        edge := signal.edge
        reasoning := signal.reasoning
        hypotheticalSize := pos.positionSize
        hypotheticalShares := pos.positionSize / signal.marketPrice
        entryPrice := signal.marketPrice
        resolved := false
        resolution := none
        resolvedAt := none
        pnl := none
        model := model }
    { st with trades := st.trades ++ [trade],
              simulatedBankroll := st.simulatedBankroll - pos.positionSize }

/-- Credit applied for one just-resolved trade (paper-trader.ts,
runPaperCycle step 2, body of the justResolved loop): the pnl is added
when it is non-null and the trade carries a model tag. -/
def resolutionCredit (t : PaperTrade) : ℚ :=
  match t.pnl with
  | none => 0
  | some pnl => if t.model = "" then 0 else pnl

/-- JavaScript truthiness of the nullable resolvedAt timestamp. -/
def resolvedAtTruthy (t : PaperTrade) : Bool :=
  match t.resolvedAt with
  | none => false
  | some r => r != 0

/-- Resolution phase of one paper-trading cycle (paper-trader.ts,
runPaperCycle step 2): runs checkResolutions over the trades, then
credits the simulated bankroll with the pnl of every resolved trade
whose resolvedAt lies within two cycle intervals of now. -/
def resolutionPhase (cfg : TradingConfig)
    (statuses : String → Option GammaMarketResolution) (now : ℤ)
    (st : PaperState) : PaperState :=
  if st.trades.length = 0 then st
  else
    let trades := checkResolutions statuses now st.trades
    let justResolved := trades.filter fun t =>
      t.resolved && resolvedAtTruthy t &&
        decide (now - t.resolvedAt.getD 0 < cfg.cycleIntervalMs * 2)
    let credit := (justResolved.map resolutionCredit).sum
    { st with trades := trades,
              simulatedBankroll := st.simulatedBankroll + credit }

/-- Authoritative bankroll recomputed from the full trade history
(report script, main: deduct every cost basis, add back cost plus pnl of
every resolved trade). -/
def recomputeBankroll (initial : ℚ) (trades : List PaperTrade) : ℚ :=
  trades.foldl
    (fun bankroll t =>
      let bankroll := bankroll - t.hypotheticalSize
      if t.resolved && t.pnl.isSome then
        bankroll + t.hypotheticalSize + t.pnl.getD 0
      else bankroll)
    initial

/-- Arithmetic mean of a list of rationals, the sum/length reduce pattern
of the source. -/
def meanQ (l : List ℚ) : ℚ := l.sum / l.length

/-- Median as computed in generateEnsembleSignals (analyzer.ts): sort
ascending, take the middle element for odd length, the mean of the two
middle elements for even length. -/
def medianQ (l : List ℚ) : ℚ :=
  let sorted := l.insertionSort (· ≤ ·)
  if sorted.length % 2 = 1 then sorted.getD (sorted.length / 2) 0
  else (sorted.getD (sorted.length / 2 - 1) 0 + sorted.getD (sorted.length / 2) 0) / 2

/-- Signals of the group voting YES (analyzer.ts, generateEnsembleSignals). -/
def yesSignals (sigs : List Signal) : List Signal :=
  sigs.filter fun s => s.side == Side.YES

/-- Signals of the group voting NO (analyzer.ts, generateEnsembleSignals). -/
def noSignals (sigs : List Signal) : List Signal :=
  sigs.filter fun s => s.side == Side.NO

/-- Majority block of a signal group: the YES signals when they
outnumber the NO signals, otherwise the NO signals (analyzer.ts,
generateEnsembleSignals). -/
def majoritySignals (sigs : List Signal) : List Signal :=
  if (noSignals sigs).length < (yesSignals sigs).length then yesSignals sigs
  else noSignals sigs

/-- Ensemble consensus signal for one market group (analyzer.ts,
generateEnsembleSignals, body of the per-market loop): requires at least
two signals and an unequal YES/NO split, then emits a virtual signal
with majority side, median fairYes over all the signals of the group,
confidence scaled by the agreement ratio, and the mean edge of the
majority, tagged with model "ensemble". -/
def ensembleForMarket (sigs : List Signal) : Option Signal :=
  if sigs.length < 2 then none
  else
    let yesSigs := yesSignals sigs
    let noSigs := noSignals sigs
    -- Only emit if a strict majority agrees
    if yesSigs.length = noSigs.length then none
    else
      let majority := majoritySignals sigs
      match majority, sigs with
      | m0 :: _, refSignal :: _ =>
        let side := m0.side
        let agreementRatio : ℚ := (majority.length : ℚ) / (sigs.length : ℚ)
        let fairYes := medianQ (sigs.map Signal.fairYes)
        let avgConfidence := meanQ (majority.map Signal.confidence)
        let confidence := agreementRatio * avgConfidence
        let avgEdge := meanQ (majority.map Signal.edge)
        some { market := refSignal.market
               fairYes := fairYes
               confidence := confidence
               reasoning := "Ensemble consensus: " ++ toString majority.length
                 ++ "/" ++ toString sigs.length ++ " models agree on "
                 ++ (match side with | Side.YES => "YES" | Side.NO => "NO")
               edge := avgEdge
               side := side
               marketPrice := if side = Side.YES then refSignal.market.outcomePrices.1
                 else refSignal.market.outcomePrices.2
               tokenId := if side = Side.YES then refSignal.market.clobTokenIds.1
                 else refSignal.market.clobTokenIds.2
               informationBasis := refSignal.informationBasis
               model := "ensemble" }
      | _, _ => none

/-- Fixed decile partition of probability space (reporter.ts,
BUCKET_RANGES). -/
structure BucketRange where
  range : String
  lower : ℚ
  upper : ℚ
deriving DecidableEq, Repr

/-- Ten calibration deciles (reporter.ts, BUCKET_RANGES). -/
def BUCKET_RANGES : List BucketRange :=
  [ ⟨"0%-10%", 0.0, 0.1⟩
  , ⟨"10%-20%", 0.1, 0.2⟩
  , ⟨"20%-30%", 0.2, 0.3⟩
  , ⟨"30%-40%", 0.3, 0.4⟩
  , ⟨"40%-50%", 0.4, 0.5⟩
  , ⟨"50%-60%", 0.5, 0.6⟩
  , ⟨"60%-70%", 0.6, 0.7⟩
  , ⟨"70%-80%", 0.7, 0.8⟩
  , ⟨"80%-90%", 0.8, 0.9⟩
  , ⟨"90%-100%", 0.9, 1.0⟩ ]

/-- Aggregated calibration bucket (types.ts, CalibrationBucket). -/
structure CalibrationBucket where
  range : String
  lower : ℚ
  upper : ℚ
  predictions : ℕ
  resolvedYes : ℕ
  actualRate : Option ℚ
  expectedRate : ℚ
  brierSum : ℚ
deriving DecidableEq, Repr

/-- Implied probability of the side the trade took (reporter.ts,
buildCalibrationBuckets): fairYes for a YES bet, 1 - fairYes for a NO
bet. -/
def impliedProb (t : PaperTrade) : ℚ :=
  if t.side = Side.YES then t.fairYes else 1 - t.fairYes

/-- Whether the trade won, the side === resolution comparison of the
source (null resolution compares unequal to either side). -/
def tradeWon (t : PaperTrade) : Bool :=
  t.resolution == some t.side

/-- Calibration table builder (reporter.ts, buildCalibrationBuckets):
for each decile, the resolved trades whose implied probability falls in
[lower, upper), the wins among them, the realized win rate and the
running Brier sum. -/
def buildCalibrationBuckets (resolved : List PaperTrade) :
    List CalibrationBucket :=
  BUCKET_RANGES.map fun range =>
    let inBucket := resolved.filter fun t =>
      decide (range.lower ≤ impliedProb t ∧ impliedProb t < range.upper)
    let won := inBucket.filter tradeWon
    let brierSum :=
      (inBucket.map fun t =>
        (impliedProb t - (if tradeWon t then 1 else 0)) ^ 2).sum
    { range := range.range
      lower := range.lower
      upper := range.upper
      predictions := inBucket.length
      resolvedYes := won.length
      actualRate := if 0 < inBucket.length
        then some ((won.length : ℚ) / (inBucket.length : ℚ)) else none
      expectedRate := (range.lower + range.upper) / 2
      brierSum := brierSum }

/-- Estimator response body after the JSON extraction chain of
deepAnalyze (estimator.ts): the numeric fairYes field, the optional
confidence field (none when the field is missing), the raw
informationBasis string and the key factors. -/
structure ParsedEstimate where
  fairYes : ℚ
  confidence : Option ℚ
  informationBasis : String
  keyFactors : List String
deriving DecidableEq, Repr

/-- Stage-2 estimate (types.ts, Stage2Estimate). -/
structure Stage2Estimate where
  marketId : String
  question : String
  fairYes : ℚ
  confidence : ℚ
  reasoning : String
  keyFactors : List String
  informationBasis : String
deriving DecidableEq, Repr

/-- Accepted values of the informationBasis field (estimator.ts,
deepAnalyze, validBases). -/
def validBases : List String := ["concrete", "informed", "speculative"]

/-- Finalization of a successfully parsed estimator response
(estimator.ts, deepAnalyze, return value construction): fairYes is
clamped into [0.01, 0.99] and confidence into [0, 1], with the
JavaScript parsed.confidence || 0.3 default applied when confidence is
missing or zero; an unknown basis falls back to "speculative". -/
def finalizeEstimate (market : GammaMarket) (parsed : ParsedEstimate) :
    Stage2Estimate :=
  let basis := if validBases.contains parsed.informationBasis
    then parsed.informationBasis else "speculative"
  let confRaw : ℚ := match parsed.confidence with
    | none => 0.3
    | some c => if c = 0 then 0.3 else c
  { marketId := market.id
    question := market.question
    fairYes := max 0.01 (min 0.99 parsed.fairYes)
    confidence := max 0 (min 1 confRaw)
    reasoning := ""
    keyFactors := parsed.keyFactors
    informationBasis := basis }

/-- Result of deepAnalyze (estimator.ts) as a function of the extraction
chain outcome: none when every extraction strategy failed or the
extracted fairYes was not a number, otherwise the finalized estimate. -/
def deepAnalyzeResult (market : GammaMarket) (parsed : Option ParsedEstimate) :
    Option Stage2Estimate :=
  match parsed with
  | none => none
  | some p => some (finalizeEstimate market p)

/-! Concrete instances used to exercise the embedded pipeline. -/

/-- Sample market: YES trades at 0.40, NO at 0.60. -/
def mktW : GammaMarket :=
  ⟨"m1", "Will it rain tomorrow?", "c1", "s1", "2025-01-01",
   (2/5, 3/5), ("tokY", "tokN"), 1000⟩

/-- Sample trading configuration: $10,000 bankroll, 25% fractional Kelly,
7.5 per mille max trade risk, $1 minimum trade, 10-cent longshot floor,
3 trades per cycle, 10 open positions, 10-minute cycles. -/
def cfgW : TradingConfig := ⟨10000, 1/4, 3/400, 1, 1/10, 3, 10, 600000⟩

/-- Configuration with maxTradesPerCycle = 1, to exercise the cycle
cutoff of sizePositions. -/
def cfgCutoff : TradingConfig := ⟨10000, 1/4, 3/400, 1, 1/10, 1, 5, 600000⟩

/-- Scenario B signal: YES at price 0.40 with fair value 0.60. -/
def sigYesW : Signal :=
  ⟨mktW, 3/5, 7/10, "r", 1/5, Side.YES, 2/5, "tokY", "informed", "modelA"⟩

/-- Signal with negative Kelly (fair value 0.25 below the 0.50 entry),
rejected by the sizer. -/
def sigNegKelly : Signal :=
  ⟨mktW, 1/4, 7/10, "r", 1/5, Side.YES, 1/2, "tokY", "informed", "modelA"⟩

/-- First estimator signal of the ensemble scenario. -/
def sigEnsA : Signal :=
  ⟨mktW, 3/5, 4/5, "a", 1/5, Side.YES, 2/5, "tokY", "informed", "modelA"⟩

/-- Second estimator signal of the ensemble scenario. -/
def sigEnsB : Signal :=
  ⟨mktW, 7/10, 3/5, "b", 3/10, Side.YES, 2/5, "tokY", "informed", "modelB"⟩

/-- Consensus signal the aggregator produces from sigEnsA and sigEnsB:
median fair value 0.65, confidence 1.0 x mean 0.70, edge mean 0.25. -/
def ensembleOutW : Signal :=
  ⟨mktW, 13/20, 7/10, "Ensemble consensus: 2/2 models agree on YES",
   1/4, Side.YES, 2/5, "tokY", "informed", "ensemble"⟩

/-- Sized position the sizer returns for sigYesW at bankroll $10,000. -/
def posSizedW : SizedPosition := ⟨sigYesW, 75, 1/12, 375/2⟩

/-- Hand-sized $100 position on sigYesW (scenario D entry). -/
def posOpenW : SizedPosition := ⟨sigYesW, 100, 1/12, 250⟩

/-- Fresh ledger state with a $1,000 bankroll. -/
def emptyStateW : PaperState := ⟨1000, 1000, []⟩

/-- Resolution source reporting market m1 closed with settlement 1/0
(YES won). -/
def statusesYesWon : String → Option GammaMarketResolution :=
  fun id => if id == "m1" then some ⟨true, false, some (1, 0)⟩ else none

/-- Resolution source reporting market m1 closed with a 0.5/0.5 split
(refund), no side extreme. -/
def statusesAmbiguous : String → Option GammaMarketResolution :=
  fun id => if id == "m1" then some ⟨true, false, some (1/2, 1/2)⟩ else none

/-- Resolution source with no data. -/
def statusesEmpty : String → Option GammaMarketResolution := fun _ => none

/-- Ledger after cycle 1 opens the $100 scenario-D trade. -/
def stateAfterOpen : PaperState := openTrade "paper-1" "modelA" 0 1 posOpenW emptyStateW

/-- Ledger after cycle 2 (10 minutes later) resolves the trade YES. -/
def stateAfterResolve : PaperState :=
  resolutionPhase cfgW statusesYesWon 600000 stateAfterOpen

/-- Ledger after cycle 3 (20 minutes), no new resolution data. -/
def stateThirdCycle : PaperState :=
  resolutionPhase cfgW statusesEmpty 1200000 stateAfterResolve

/-- Already-resolved paper trade, for the immutability checks. -/
def tradeResolvedW : PaperTrade :=
  ⟨"paper-0", 0, 1, "m1", "c1", "Will it rain tomorrow?", "s1", "2025-01-01",
   2/5, 3/5, 1000, Side.YES, 3/5, 7/10, 1/5, "r", 100, 250, 2/5,
   true, some Side.YES, some 5, some 150, "modelA"⟩

/-- Open paper trade on market m1, for the resolution checks. -/
def tradeOpenW : PaperTrade :=
  ⟨"paper-2", 0, 1, "m1", "c1", "Will it rain tomorrow?", "s1", "2025-01-01",
   2/5, 3/5, 1000, Side.YES, 3/5, 7/10, 1/5, "r", 100, 250, 2/5,
   false, none, none, none, "modelA"⟩

/-- Estimator response whose extracted fairYes, 1.5, lies outside [0,1]. -/
def parsedOutOfRange : ParsedEstimate := ⟨3/2, some (1/2), "informed", []⟩

/-! Auxiliary lemmas. -/

/-- Rounding down to cents never increases a value. -/
theorem floorCents_le (x : ℚ) : floorCents x ≤ x := by
  have h : (⌊x * 100⌋ : ℚ) ≤ x * 100 := Int.floor_le _
  unfold floorCents
  linarith

/-- Resolution update on an open trade whose statuses offer no extreme
settlement price: the trade passes through unchanged. -/
theorem resolveStep_not_resolved (statuses : String → Option GammaMarketResolution)
    (now : ℤ) (t : PaperTrade) (hopen : t.resolved = false)
    (h : ∀ status yes no, statuses t.marketId = some status → status.closed = true →
         status.outcomePrices = some (yes, no) → yes ≤ 0.95 ∧ no ≤ 0.95) :
    resolveStep statuses now t = t := by
  unfold resolveStep
  rw [hopen]
  simp only [Bool.false_eq_true, if_false]
  rcases hstat : statuses t.marketId with _ | status
  · rfl
  · rcases hc : status.closed
    · simp [hc]
    · rcases hprices : status.outcomePrices with _ | ⟨yes, no⟩
      · simp [hc, hprices]
      · obtain ⟨hy, hn⟩ := h status yes no hstat hc hprices
        simp [hc, hprices, not_lt.mpr hy, not_lt.mpr hn]

/-! Claim theorems. -/

/-- C5: when a trade resolves, its pnl equals shares minus cost basis if
the outcome matches the side and minus the cost basis otherwise; the
scenario-D trade (entry 0.40, size $100) opened by the ledger has 250
shares and a pnl of $150 when YES matches its side. -/
theorem calculatePnl_spec :
    (∀ (t : PaperTrade) (r : Side),
        calculatePnl t r =
          if t.side = r then t.hypotheticalShares * 1 - t.hypotheticalSize
          else -t.hypotheticalSize)
    ∧ stateAfterOpen.trades.map
        (fun t => (t.hypotheticalShares, calculatePnl t Side.YES)) = [(250, 150)] := by
  constructor
  · intro t r
    simp only [calculatePnl]
    split <;> ring
  · simp [stateAfterOpen, openTrade, emptyStateW, posOpenW, sigYesW, mktW, calculatePnl]
    norm_num

/-- C7: a trade that is already resolved is returned unchanged by the
per-trade resolution update, hence by checkResolutions (which maps
resolveStep over the trade list): resolution, resolvedAt and pnl are
immutable and no RESOLVED to OPEN transition or double resolution can
occur. -/
theorem resolveStep_resolved_immutable
    (statuses : String → Option GammaMarketResolution) (now : ℤ)
    (t : PaperTrade) (h : t.resolved = true) :
    resolveStep statuses now t = t := by
  simp [resolveStep, h]

/-- C7 witness: the already-resolved sample trade is untouched even by a
resolution source that reports its market settled the other way. -/
theorem resolveStep_resolved_immutable_witness :
    tradeResolvedW.resolved = true ∧
      resolveStep statusesAmbiguous 999999 tradeResolvedW = tradeResolvedW :=
  ⟨rfl, resolveStep_resolved_immutable statusesAmbiguous 999999 tradeResolvedW rfl⟩

/-- C2: the resolution checker marks an open trade resolved only when
the source reports the market closed and one parsed settlement price
exceeds 0.95; a closed market where neither parsed price exceeds 0.95
(refund or split) leaves the trade unresolved with every field
unchanged. -/
theorem checkResolutions_conservative
    (statuses : String → Option GammaMarketResolution) (now : ℤ)
    (t : PaperTrade) :
    ((resolveStep statuses now t).resolved = true → t.resolved = false →
      ∃ status yesPrice noPrice,
        statuses t.marketId = some status ∧ status.closed = true ∧
        status.outcomePrices = some (yesPrice, noPrice) ∧
        ((0.95:ℚ) < yesPrice ∨ (0.95:ℚ) < noPrice))
    ∧ (∀ (status : GammaMarketResolution) (yesPrice noPrice : ℚ),
        statuses t.marketId = some status → status.closed = true →
        status.outcomePrices = some (yesPrice, noPrice) →
        yesPrice ≤ 0.95 → noPrice ≤ 0.95 →
        resolveStep statuses now t = t) := by
  constructor
  · intro hres hopen
    by_contra hcon
    push_neg at hcon
    have heq := resolveStep_not_resolved statuses now t hopen hcon
    rw [heq, hopen] at hres
    exact absurd hres (by simp)
  · intro status y n hstat hc hprices hy hn
    rcases hres : t.resolved
    · refine resolveStep_not_resolved statuses now t hres ?_
      intro st yy nn h1 h2 h3
      rw [hstat] at h1
      obtain rfl := Option.some.inj h1
      rw [hprices] at h3
      have h4 := Option.some.inj h3
      rw [Prod.mk.injEq] at h4
      obtain ⟨rfl, rfl⟩ := h4
      exact ⟨hy, hn⟩
    · simp [resolveStep, hres]

/-- C2 witness: an open trade on a market that closed 0.5/0.5 (refund)
is left exactly as it was. -/
theorem checkResolutions_conservative_witness :
    resolveStep statusesAmbiguous 600000 tradeOpenW = tradeOpenW :=
  (checkResolutions_conservative statusesAmbiguous 600000 tradeOpenW).2
    ⟨true, false, some (1/2, 1/2)⟩ (1/2) (1/2) rfl rfl rfl
    (by norm_num) (by norm_num)

/-- C9 counterexample: an estimator response whose extracted fairYes is
1.5, outside [0,1], is not discarded: deepAnalyze returns an estimate,
with the value clamped to 0.99. -/
theorem deepAnalyze_out_of_range_accepted :
    (1:ℚ) < parsedOutOfRange.fairYes ∧
    deepAnalyzeResult mktW (some parsedOutOfRange) ≠ none ∧
    (deepAnalyzeResult mktW (some parsedOutOfRange)).map Stage2Estimate.fairYes
      = some (99/100) := by
  refine ⟨by norm_num [parsedOutOfRange], by simp [deepAnalyzeResult], ?_⟩
  simp only [deepAnalyzeResult, finalizeEstimate, parsedOutOfRange, Option.map_some]
  norm_num

/-- C9 (amended): deepAnalyze never discards a response for an
out-of-range fairYes; every successfully extracted response yields an
estimate, and the returned fairYes is clamped into [0.01, 0.99], so it
always lies in [0, 1]. -/
theorem deepAnalyzeResult_clamps (market : GammaMarket) :
    (∀ p, (deepAnalyzeResult market (some p)).isSome = true)
    ∧ (∀ parsed e, deepAnalyzeResult market parsed = some e →
        1/100 ≤ e.fairYes ∧ e.fairYes ≤ 99/100) := by
  constructor
  · intro p; rfl
  · intro parsed e h
    cases parsed with
    | none => simp [deepAnalyzeResult] at h
    | some p =>
      obtain rfl := Option.some.inj h
      constructor
      · exact le_trans (by norm_num) (le_max_left _ _)
      · exact max_le (by norm_num) (le_trans (min_le_left _ _) (by norm_num))

/-- C9 witness: the clamping bounds hold at the out-of-range response. -/
theorem deepAnalyzeResult_clamps_witness :
    1/100 ≤ (finalizeEstimate mktW parsedOutOfRange).fairYes ∧
    (finalizeEstimate mktW parsedOutOfRange).fairYes ≤ 99/100 :=
  (deepAnalyzeResult_clamps mktW).2 (some parsedOutOfRange) _ rfl

/-- C10: sizePositions only ever considers the prefix of the signal list
of length min(maxTradesPerCycle, maxOpenPositions - open positions); and
at a concrete input where the single considered signal has negative
Kelly, the result is empty although the signal after the cutoff would
have sized to a valid position. -/
theorem sizePositions_cutoff :
    (∀ (cfg : TradingConfig) (signals : List Signal) (balance : ℚ)
        (openPositions : List OpenPosition),
        sizePositions cfg signals balance openPositions =
          sizePositions cfg
            (signals.take (min cfg.maxTradesPerCycle
              ((cfg.maxOpenPositions : ℤ) - openPositions.length).toNat))
            balance openPositions)
    ∧ sizePositions cfgCutoff [sigNegKelly, sigYesW] 10000 [] = []
    ∧ (sizeOne cfgCutoff sigYesW 10000).isSome = true := by
  refine ⟨?_, ?_, ?_⟩
  · intro cfg signals balance openPositions
    simp only [sizePositions]
    split
    · rfl
    · rw [List.take_take, min_self]
  · norm_num [sizePositions, sizeLoop, sizeOne, cfgCutoff, sigNegKelly, mktW]
  · norm_num [sizeOne, cfgCutoff, sigYesW, mktW, min_def]

/-- Boolean comparison table for Side, used when evaluating filters. -/
theorem side_beq_eval :
    (Side.YES == Side.YES) = true ∧ (Side.YES == Side.NO) = false ∧
    (Side.NO == Side.YES) = false ∧ (Side.NO == Side.NO) = true :=
  ⟨rfl, rfl, rfl, rfl⟩

/-- Rounding down to cents preserves nonnegativity. -/
theorem floorCents_nonneg {x : ℚ} (h : 0 ≤ x) : 0 ≤ floorCents x := by
  have h1 : (0:ℤ) ≤ ⌊x * 100⌋ := Int.floor_nonneg.mpr (by linarith)
  have h2 : (0:ℚ) ≤ (⌊x * 100⌋ : ℚ) := by exact_mod_cast h1
  unfold floorCents
  exact div_nonneg h2 (by norm_num)

/-- Bounds on any position sizeOne returns: the size is nonnegative, at
most the balance, and at most its max-loss cap. -/
theorem sizeOne_some_bounds (cfg : TradingConfig) (s : Signal) (balance : ℚ)
    (pos : SizedPosition) (hmin : 0 ≤ cfg.minTradeSize)
    (h : sizeOne cfg s balance = some pos) :
    0 ≤ pos.positionSize ∧ pos.positionSize ≤ balance ∧
      pos.positionSize ≤ min 75 (balance * cfg.maxTradeRisk) := by
  simp only [sizeOne] at h
  by_cases h1 : s.marketPrice < cfg.minPriceThreshold
  · rw [if_pos h1] at h; cases h
  rw [if_neg h1] at h
  set b := 1 / s.marketPrice - 1 with hb
  set p := if s.side = Side.YES then s.fairYes else 1 - s.fairYes with hp
  set fK := (b * p - (1 - p)) / b with hfK
  by_cases h2 : fK ≤ 0
  · rw [if_pos h2] at h; cases h
  rw [if_neg h2] at h
  set pct := (if s.marketPrice < 0.35 then (0.15:ℚ)
    else if s.marketPrice ≤ 0.50 then 0.12 else 0.08) with hpct
  set ps := min (min (balance * (fK * cfg.kellyFraction)) (balance * pct))
    (min 75 (balance * cfg.maxTradeRisk)) with hps
  by_cases h3 : ps < cfg.minTradeSize
  · rw [if_pos h3] at h; cases h
  rw [if_neg h3] at h
  obtain rfl := Option.some.inj h
  have hps_nonneg : 0 ≤ ps := le_trans hmin (not_lt.mp h3)
  have hfloor_le : floorCents ps ≤ ps := floorCents_le ps
  have hfloor_nonneg : 0 ≤ floorCents ps := floorCents_nonneg hps_nonneg
  have hple : ps ≤ balance * pct := le_trans (min_le_left _ _) (min_le_right _ _)
  have hrisk : ps ≤ min 75 (balance * cfg.maxTradeRisk) := min_le_right _ _
  have hpct_pos : 0 < pct := by rw [hpct]; split_ifs <;> norm_num
  have hpct_le1 : pct ≤ 1 := by rw [hpct]; split_ifs <;> norm_num
  have hbal : 0 ≤ balance := by
    have h0 : 0 ≤ balance * pct := le_trans hps_nonneg hple
    by_contra hneg
    push_neg at hneg
    have : balance * pct < 0 := mul_neg_of_neg_of_pos hneg hpct_pos
    linarith
  have hbp : balance * pct ≤ balance := mul_le_of_le_one_right hbal hpct_le1
  exact ⟨hfloor_nonneg, le_trans hfloor_le (le_trans hple hbp),
    le_trans hfloor_le hrisk⟩

/-- Bounds on every position of the sequential sizing loop, against the
initial running balance. -/
theorem sizeLoop_bounds (cfg : TradingConfig) (hmin : 0 ≤ cfg.minTradeSize)
    (hrisk : 0 ≤ cfg.maxTradeRisk) :
    ∀ (signals : List Signal) (balance : ℚ), 0 ≤ balance →
      ∀ pos ∈ sizeLoop cfg signals balance,
        pos.positionSize ≤ balance ∧
          pos.positionSize ≤ min 75 (balance * cfg.maxTradeRisk) := by
  intro signals
  induction signals with
  | nil => intro balance _ pos hpos; simp [sizeLoop] at hpos
  | cons s rest ih =>
    intro balance hbal pos hpos
    cases hone : sizeOne cfg s balance with
    | none =>
      rw [sizeLoop, hone] at hpos
      exact ih balance hbal pos hpos
    | some sized =>
      rw [sizeLoop, hone] at hpos
      rcases List.mem_cons.mp hpos with rfl | hpos2
      · exact (sizeOne_some_bounds cfg s balance pos hmin hone).2
      · have hb := sizeOne_some_bounds cfg s balance sized hmin hone
        have hnn : 0 ≤ balance - sized.positionSize := by linarith [hb.2.1]
        have hres := ih (balance - sized.positionSize) hnn pos hpos2
        refine ⟨by linarith [hres.1, hb.1], le_trans hres.2 ?_⟩
        exact min_le_min le_rfl
          (mul_le_mul_of_nonneg_right (by linarith [hb.1]) hrisk)

/-- C3: the position sizer never returns a position whose size exceeds
the available bankroll nor the max-loss cap min($75, balance x
maxTradeRisk); this holds for a single signal and, against the running
balance, for every position of a batch sizing call. -/
theorem sizer_never_exceeds_bankroll (cfg : TradingConfig)
    (hmin : 0 ≤ cfg.minTradeSize) :
    (∀ (s : Signal) (balance : ℚ) (pos : SizedPosition),
        sizeOne cfg s balance = some pos →
        pos.positionSize ≤ balance ∧
          pos.positionSize ≤ min 75 (balance * cfg.maxTradeRisk))
    ∧ (0 ≤ cfg.maxTradeRisk →
        ∀ (signals : List Signal) (balance : ℚ)
          (openPositions : List OpenPosition) (pos : SizedPosition),
          0 ≤ balance →
          pos ∈ sizePositions cfg signals balance openPositions →
          pos.positionSize ≤ balance ∧
            pos.positionSize ≤ min 75 (balance * cfg.maxTradeRisk)) := by
  constructor
  · intro s balance pos h
    exact (sizeOne_some_bounds cfg s balance pos hmin h).2
  · intro hrisk signals balance openPositions pos hbal hpos
    simp only [sizePositions] at hpos
    split at hpos
    · cases hpos
    · exact sizeLoop_bounds cfg hmin hrisk _ balance hbal pos hpos

/-- C3 witness: at the concrete configuration and scenario-B signal the
sizer returns the $75 position, within both bounds. -/
theorem sizer_never_exceeds_bankroll_witness :
    (0:ℚ) ≤ cfgW.minTradeSize ∧
    posSizedW.positionSize ≤ 10000 ∧
    posSizedW.positionSize ≤ min 75 (10000 * cfgW.maxTradeRisk) :=
  ⟨by norm_num [cfgW],
    (sizer_never_exceeds_bankroll cfgW (by norm_num [cfgW])).1 sigYesW 10000
      posSizedW
      (by norm_num [sizeOne, cfgW, sigYesW, mktW, posSizedW, min_def, floorCents])⟩

/-- C4: with bankroll $10,000, a YES signal at price 0.40 and fair value
0.60, fractional Kelly 0.25, max trade risk at least 0.0075, minimum
trade size at most $75 and a longshot floor below 0.40, full Kelly is
1/3, the raw size $10,000/12 is capped by the 12% mid-price bucket
ceiling ($1,200) and then by the $75 max-loss cap, and sizeOne returns
exactly $75. -/
theorem sizeOne_scenarioB (cfg : TradingConfig) (s : Signal)
    (hkf : cfg.kellyFraction = 1/4) (hrisk : 3/400 ≤ cfg.maxTradeRisk)
    (hmin : cfg.minTradeSize ≤ 75) (hthr : cfg.minPriceThreshold < 2/5)
    (hside : s.side = Side.YES) (hprice : s.marketPrice = 2/5)
    (hfair : s.fairYes = 3/5) :
    (sizeOne cfg s 10000).map SizedPosition.positionSize = some 75 := by
  have h75 : min 75 ((10000:ℚ) * cfg.maxTradeRisk) = 75 :=
    min_eq_left (by linarith)
  simp only [sizeOne, hside, hprice, hfair, hkf]
  rw [if_neg (by linarith : ¬((2:ℚ)/5 < cfg.minPriceThreshold))]
  rw [h75]
  norm_num [min_def]
  refine ⟨_, ⟨hmin, rfl⟩, ?_⟩
  norm_num [floorCents]

/-- C4 witness: the scenario-B evaluation at the sample configuration. -/
theorem sizeOne_scenarioB_witness :
    cfgW.kellyFraction = 1/4 ∧ 3/400 ≤ cfgW.maxTradeRisk ∧
    cfgW.minTradeSize ≤ 75 ∧ cfgW.minPriceThreshold < 2/5 ∧
    (sizeOne cfgW sigYesW 10000).map SizedPosition.positionSize = some 75 :=
  ⟨by norm_num [cfgW], by norm_num [cfgW], by norm_num [cfgW], by norm_num [cfgW],
    sizeOne_scenarioB cfgW sigYesW (by norm_num [cfgW]) (by norm_num [cfgW])
      (by norm_num [cfgW]) (by norm_num [cfgW]) rfl rfl rfl⟩

/-- C6: for a group of at least two signals on one market, a consensus
signal is emitted iff the YES/NO split is not even (a strict majority
exists); when emitted, its fairYes is the median of all the group
members, its confidence is the agreement ratio times the mean confidence
of the majority, its edge is the mean edge of the majority, and it is
tagged "ensemble". -/
theorem ensembleForMarket_consensus (sigs : List Signal) (h2 : 2 ≤ sigs.length) :
    ((ensembleForMarket sigs).isNone ↔
       (yesSignals sigs).length = (noSignals sigs).length)
    ∧ (∀ out, ensembleForMarket sigs = some out →
        out.fairYes = medianQ (sigs.map Signal.fairYes)
        ∧ out.confidence = ((majoritySignals sigs).length : ℚ) / (sigs.length : ℚ)
            * meanQ ((majoritySignals sigs).map Signal.confidence)
        ∧ out.edge = meanQ ((majoritySignals sigs).map Signal.edge)
        ∧ out.model = "ensemble") := by
  have hlen : ¬(sigs.length < 2) := not_lt.mpr h2
  by_cases heq : (yesSignals sigs).length = (noSignals sigs).length
  · constructor
    · simp [ensembleForMarket, hlen, heq]
    · intro out hout
      simp [ensembleForMarket, hlen, heq] at hout
  · obtain ⟨ref, rest, rfl⟩ : ∃ ref rest, sigs = ref :: rest := by
      cases sigs with
      | nil => simp at h2
      | cons a l => exact ⟨a, l, rfl⟩
    obtain ⟨m0, mrest, hmaj⟩ :
        ∃ m0 mrest, majoritySignals (ref :: rest) = m0 :: mrest := by
      cases hm : majoritySignals (ref :: rest) with
      | cons a l => exact ⟨a, l, rfl⟩
      | nil =>
        exfalso
        unfold majoritySignals at hm
        by_cases hlt : (noSignals (ref :: rest)).length <
            (yesSignals (ref :: rest)).length
        · rw [if_pos hlt] at hm
          rw [hm] at hlt
          exact absurd hlt (by simp)
        · rw [if_neg hlt] at hm
          rw [hm] at hlt
          apply heq
          rw [hm]
          simp only [List.length_nil] at hlt ⊢
          omega
    constructor
    · simp only [ensembleForMarket, if_neg hlen, if_neg heq, hmaj]
      simp [heq]
    · intro out hout
      simp only [ensembleForMarket, if_neg hlen, if_neg heq, hmaj] at hout
      obtain rfl := Option.some.inj hout
      refine ⟨rfl, ?_, ?_, rfl⟩ <;> simp [hmaj]

/-- C6 witness: two YES signals on the same market produce the concrete
consensus signal, whose fields satisfy the consensus equations. -/
theorem ensembleForMarket_consensus_witness :
    ensembleOutW.fairYes = medianQ (([sigEnsA, sigEnsB] : List Signal).map Signal.fairYes)
    ∧ ensembleOutW.confidence =
        ((majoritySignals [sigEnsA, sigEnsB]).length : ℚ)
          / (([sigEnsA, sigEnsB] : List Signal).length : ℚ)
          * meanQ ((majoritySignals [sigEnsA, sigEnsB]).map Signal.confidence)
    ∧ ensembleOutW.edge = meanQ ((majoritySignals [sigEnsA, sigEnsB]).map Signal.edge)
    ∧ ensembleOutW.model = "ensemble" :=
  (ensembleForMarket_consensus [sigEnsA, sigEnsB] (by norm_num)).2 ensembleOutW
    (by
      simp only [ensembleForMarket, yesSignals, noSignals, majoritySignals,
        medianQ, meanQ, sigEnsA, sigEnsB, mktW, ensembleOutW, List.filter,
        List.insertionSort, List.orderedInsert, side_beq_eval.1,
        side_beq_eval.2.1, side_beq_eval.2.2.1, side_beq_eval.2.2.2]
      norm_num
      rfl)

/-- Sum of a 0/1 indicator over a list equals the filtered length. -/
theorem sum_map_ite_one {β : Type} (rs : List β) (p : β → Bool) :
    (rs.map fun r => if p r then (1:ℕ) else 0).sum = (rs.filter p).length := by
  induction rs with
  | nil => simp
  | cons a l ih => cases hp : p a <;> simp [List.filter_cons, hp, ih] <;> omega

/-- Pointwise sums of naturals distribute over the list sum. -/
theorem sum_map_add_nat {α : Type} (l : List α) (f g : α → ℕ) :
    (l.map fun x => f x + g x).sum = (l.map f).sum + (l.map g).sum := by
  induction l with
  | nil => simp
  | cons a l ih => simp [ih]; omega

/-- Double counting: summing per-bucket trade counts equals summing
per-trade bucket counts. -/
theorem sum_buckets_swap (rs : List BucketRange) (l : List PaperTrade) :
    (rs.map fun r => (l.filter fun t =>
        decide (r.lower ≤ impliedProb t ∧ impliedProb t < r.upper)).length).sum
      = (l.map fun t => (rs.filter fun r =>
          decide (r.lower ≤ impliedProb t ∧ impliedProb t < r.upper)).length).sum := by
  induction l with
  | nil => simp
  | cons t ts ih =>
    have hfun : (fun r : BucketRange =>
        ((t :: ts).filter fun x =>
          decide (r.lower ≤ impliedProb x ∧ impliedProb x < r.upper)).length)
        = fun r : BucketRange =>
          ((if decide (r.lower ≤ impliedProb t ∧ impliedProb t < r.upper)
              then (1:ℕ) else 0)
            + (ts.filter fun x =>
                decide (r.lower ≤ impliedProb x ∧ impliedProb x < r.upper)).length) := by
      funext r
      rw [List.filter_cons]
      cases hd : decide (r.lower ≤ impliedProb t ∧ impliedProb t < r.upper) <;>
        simp [hd] <;> omega
    rw [hfun, sum_map_add_nat rs _ _,
      sum_map_ite_one rs (fun r => decide (r.lower ≤ impliedProb t ∧ impliedProb t < r.upper)),
      ih]
    simp

/-- Each probability in [0,1) falls in exactly one of the ten deciles of
BUCKET_RANGES; a probability outside [0,1) falls in none. -/
theorem countRanges (p : ℚ) :
    ((BUCKET_RANGES.filter fun r => decide (r.lower ≤ p ∧ p < r.upper)).length : ℕ)
      = if 0 ≤ p ∧ p < 1 then 1 else 0 := by
  have hlb : ∀ a : ℤ, ((a:ℚ)/10 ≤ p) ↔ (a ≤ ⌊10 * p⌋) := by
    intro a
    rw [Int.le_floor, div_le_iff₀ (by norm_num : (0:ℚ) < 10), mul_comm]
  have hub : ∀ b : ℤ, (p < (b:ℚ)/10) ↔ (⌊10 * p⌋ < b) := by
    intro b
    rw [Int.floor_lt, lt_div_iff₀ (by norm_num : (0:ℚ) < 10), mul_comm]
  have l0 : ((0.0:ℚ) ≤ p) ↔ (0 ≤ ⌊10 * p⌋) := by
    rw [show (0.0:ℚ) = ((0:ℤ):ℚ)/10 by norm_num]; exact hlb 0
  have l1 : ((0.1:ℚ) ≤ p) ↔ (1 ≤ ⌊10 * p⌋) := by
    rw [show (0.1:ℚ) = ((1:ℤ):ℚ)/10 by norm_num]; exact hlb 1
  have l2 : ((0.2:ℚ) ≤ p) ↔ (2 ≤ ⌊10 * p⌋) := by
    rw [show (0.2:ℚ) = ((2:ℤ):ℚ)/10 by norm_num]; exact hlb 2
  have l3 : ((0.3:ℚ) ≤ p) ↔ (3 ≤ ⌊10 * p⌋) := by
    rw [show (0.3:ℚ) = ((3:ℤ):ℚ)/10 by norm_num]; exact hlb 3
  have l4 : ((0.4:ℚ) ≤ p) ↔ (4 ≤ ⌊10 * p⌋) := by
    rw [show (0.4:ℚ) = ((4:ℤ):ℚ)/10 by norm_num]; exact hlb 4
  have l5 : ((0.5:ℚ) ≤ p) ↔ (5 ≤ ⌊10 * p⌋) := by
    rw [show (0.5:ℚ) = ((5:ℤ):ℚ)/10 by norm_num]; exact hlb 5
  have l6 : ((0.6:ℚ) ≤ p) ↔ (6 ≤ ⌊10 * p⌋) := by
    rw [show (0.6:ℚ) = ((6:ℤ):ℚ)/10 by norm_num]; exact hlb 6
  have l7 : ((0.7:ℚ) ≤ p) ↔ (7 ≤ ⌊10 * p⌋) := by
    rw [show (0.7:ℚ) = ((7:ℤ):ℚ)/10 by norm_num]; exact hlb 7
  have l8 : ((0.8:ℚ) ≤ p) ↔ (8 ≤ ⌊10 * p⌋) := by
    rw [show (0.8:ℚ) = ((8:ℤ):ℚ)/10 by norm_num]; exact hlb 8
  have l9 : ((0.9:ℚ) ≤ p) ↔ (9 ≤ ⌊10 * p⌋) := by
    rw [show (0.9:ℚ) = ((9:ℤ):ℚ)/10 by norm_num]; exact hlb 9
  have u1 : (p < (0.1:ℚ)) ↔ (⌊10 * p⌋ < 1) := by
    rw [show (0.1:ℚ) = ((1:ℤ):ℚ)/10 by norm_num]; exact hub 1
  have u2 : (p < (0.2:ℚ)) ↔ (⌊10 * p⌋ < 2) := by
    rw [show (0.2:ℚ) = ((2:ℤ):ℚ)/10 by norm_num]; exact hub 2
  have u3 : (p < (0.3:ℚ)) ↔ (⌊10 * p⌋ < 3) := by
    rw [show (0.3:ℚ) = ((3:ℤ):ℚ)/10 by norm_num]; exact hub 3
  have u4 : (p < (0.4:ℚ)) ↔ (⌊10 * p⌋ < 4) := by
    rw [show (0.4:ℚ) = ((4:ℤ):ℚ)/10 by norm_num]; exact hub 4
  have u5 : (p < (0.5:ℚ)) ↔ (⌊10 * p⌋ < 5) := by
    rw [show (0.5:ℚ) = ((5:ℤ):ℚ)/10 by norm_num]; exact hub 5
  have u6 : (p < (0.6:ℚ)) ↔ (⌊10 * p⌋ < 6) := by
    rw [show (0.6:ℚ) = ((6:ℤ):ℚ)/10 by norm_num]; exact hub 6
  have u7 : (p < (0.7:ℚ)) ↔ (⌊10 * p⌋ < 7) := by
    rw [show (0.7:ℚ) = ((7:ℤ):ℚ)/10 by norm_num]; exact hub 7
  have u8 : (p < (0.8:ℚ)) ↔ (⌊10 * p⌋ < 8) := by
    rw [show (0.8:ℚ) = ((8:ℤ):ℚ)/10 by norm_num]; exact hub 8
  have u9 : (p < (0.9:ℚ)) ↔ (⌊10 * p⌋ < 9) := by
    rw [show (0.9:ℚ) = ((9:ℤ):ℚ)/10 by norm_num]; exact hub 9
  have u10 : (p < (1.0:ℚ)) ↔ (⌊10 * p⌋ < 10) := by
    rw [show (1.0:ℚ) = ((10:ℤ):ℚ)/10 by norm_num]; exact hub 10
  have r0 : ((0:ℚ) ≤ p) ↔ (0 ≤ ⌊10 * p⌋) := by
    rw [show (0:ℚ) = ((0:ℤ):ℚ)/10 by norm_num]; exact hlb 0
  have r1 : (p < (1:ℚ)) ↔ (⌊10 * p⌋ < 10) := by
    rw [show (1:ℚ) = ((10:ℤ):ℚ)/10 by norm_num]; exact hub 10
  rw [← List.countP_eq_length_filter]
  simp only [BUCKET_RANGES, List.countP_cons, List.countP_nil,
    decide_eq_true_eq, l0, l1, l2, l3, l4, l5, l6, l7, l8, l9,
    u1, u2, u3, u4, u5, u6, u7, u8, u9, u10, r0, r1]
  by_cases hn : 0 ≤ ⌊10 * p⌋ ∧ ⌊10 * p⌋ < 10
  · obtain ⟨hn0, hn10⟩ := hn
    set n := ⌊10 * p⌋ with hndef
    interval_cases n <;> norm_num
  · rw [if_neg hn]
    rcases not_and_or.mp hn with h | h
    · push_neg at h
      have hz : ∀ a b : ℤ, 0 ≤ a →
          (if a ≤ ⌊10 * p⌋ ∧ ⌊10 * p⌋ < b then (1:ℕ) else 0) = 0 := by
        intro a b ha
        apply if_neg
        intro hc
        omega
      rw [hz 0 1 le_rfl, hz 1 2 (by norm_num), hz 2 3 (by norm_num),
        hz 3 4 (by norm_num), hz 4 5 (by norm_num), hz 5 6 (by norm_num),
        hz 6 7 (by norm_num), hz 7 8 (by norm_num), hz 8 9 (by norm_num),
        hz 9 10 (by norm_num)]
    · push_neg at h
      have hz : ∀ a b : ℤ, b ≤ 10 →
          (if a ≤ ⌊10 * p⌋ ∧ ⌊10 * p⌋ < b then (1:ℕ) else 0) = 0 := by
        intro a b hb
        apply if_neg
        intro hc
        omega
      rw [hz 0 1 (by norm_num), hz 1 2 (by norm_num), hz 2 3 (by norm_num),
        hz 3 4 (by norm_num), hz 4 5 (by norm_num), hz 5 6 (by norm_num),
        hz 6 7 (by norm_num), hz 7 8 (by norm_num), hz 8 9 (by norm_num),
        hz 9 10 (by norm_num)]

/-- Summing, over the trades, the number of deciles holding each trade,
counts exactly the trades with implied probability in [0,1). -/
theorem per_trade_bucket_sum (l : List PaperTrade) :
    (l.map fun t => (BUCKET_RANGES.filter fun r =>
        decide (r.lower ≤ impliedProb t ∧ impliedProb t < r.upper)).length).sum
      = (l.filter fun t => decide (0 ≤ impliedProb t ∧ impliedProb t < 1)).length := by
  induction l with
  | nil => simp
  | cons t ts ih =>
    rw [List.map_cons, List.sum_cons, List.filter_cons,
      countRanges (impliedProb t), ih]
    by_cases hp : 0 ≤ impliedProb t ∧ impliedProb t < 1
    · rw [if_pos hp, if_pos (decide_eq_true hp), List.length_cons]
      omega
    · rw [if_neg hp, if_neg (by simpa using hp)]
      omega

/-- C8: for every list of resolved trades, the prediction counts of the
ten calibration buckets sum exactly to the number of trades whose
implied probability of the taken side lies in [0, 1), each such trade
falling in exactly one decile. -/
theorem buildCalibrationBuckets_partition (resolved : List PaperTrade) :
    ((buildCalibrationBuckets resolved).map CalibrationBucket.predictions).sum
      = (resolved.filter fun t =>
          decide (0 ≤ impliedProb t ∧ impliedProb t < 1)).length := by
  have h1 : (buildCalibrationBuckets resolved).map CalibrationBucket.predictions
      = BUCKET_RANGES.map fun r => (resolved.filter fun t =>
          decide (r.lower ≤ impliedProb t ∧ impliedProb t < r.upper)).length := by
    simp only [buildCalibrationBuckets, List.map_map]
    rfl
  rw [h1, sum_buckets_swap BUCKET_RANGES resolved, per_trade_bucket_sum resolved]

/-- C1 (failing trace): the incrementally maintained simulatedBankroll of
runPaperCycle drifts from the bankroll recomputed from the trade
history. Starting from $1,000, cycle 1 opens a $100 YES trade at 0.40
(250 shares, bankroll debited to $900); in cycle 2 the market settles
YES (pnl $150), and the cycle credits only the pnl, giving $1,050, while
the recompute (initial - cost basis + cost basis + pnl over resolved
trades) gives $1,150; cycle 3, one cycle interval later, still sees the
trade inside the two-interval justResolved window and credits the pnl
again, giving $1,200. -/
theorem runPaperCycle_bankroll_drift :
    stateAfterResolve.simulatedBankroll = 1050
    ∧ recomputeBankroll stateAfterResolve.initialBankroll stateAfterResolve.trades = 1150
    ∧ stateThirdCycle.simulatedBankroll = 1200
    ∧ recomputeBankroll stateThirdCycle.initialBankroll stateThirdCycle.trades = 1150
    ∧ stateAfterResolve.simulatedBankroll ≠
        recomputeBankroll stateAfterResolve.initialBankroll stateAfterResolve.trades := by
  have h1 : stateAfterResolve.simulatedBankroll = 1050 := by
    simp [stateAfterResolve, stateAfterOpen, resolutionPhase, openTrade,
      emptyStateW, posOpenW, sigYesW, mktW, cfgW, statusesYesWon,
      checkResolutions, resolveStep, calculatePnl, resolutionCredit,
      resolvedAtTruthy]
    norm_num [resolutionCredit]
    simp only [if_neg (show ¬("modelA" = "") by decide)]
    norm_num
  have h2 : recomputeBankroll stateAfterResolve.initialBankroll
      stateAfterResolve.trades = 1150 := by
    simp [stateAfterResolve, stateAfterOpen, resolutionPhase, openTrade,
      emptyStateW, posOpenW, sigYesW, mktW, cfgW, statusesYesWon,
      checkResolutions, resolveStep, calculatePnl, resolutionCredit,
      resolvedAtTruthy, recomputeBankroll]
    norm_num
  have h3 : stateThirdCycle.simulatedBankroll = 1200 := by
    simp [stateThirdCycle, stateAfterResolve, stateAfterOpen, resolutionPhase,
      openTrade, emptyStateW, posOpenW, sigYesW, mktW, cfgW, statusesYesWon,
      statusesEmpty, checkResolutions, resolveStep, calculatePnl,
      resolutionCredit, resolvedAtTruthy]
    norm_num [resolutionCredit]
    simp only [if_neg (show ¬("modelA" = "") by decide)]
    norm_num
  have h4 : recomputeBankroll stateThirdCycle.initialBankroll
      stateThirdCycle.trades = 1150 := by
    simp [stateThirdCycle, stateAfterResolve, stateAfterOpen, resolutionPhase,
      openTrade, emptyStateW, posOpenW, sigYesW, mktW, cfgW, statusesYesWon,
      statusesEmpty, checkResolutions, resolveStep, calculatePnl,
      resolutionCredit, resolvedAtTruthy, recomputeBankroll]
    norm_num
  exact ⟨h1, h2, h3, h4, by rw [h1, h2]; norm_num⟩
end Polymarket
